import Mathlib

set_option maxHeartbeats 1000000
set_option linter.unusedSectionVars false
set_option linter.unusedVariables false

namespace Isolated

namespace Fluids

/-- Cell index of the dense LBM grid: `idx(x,y,z) = x + nx*(y + ny*z)` with periodic
wrap in streaming, modelled as a triple of residues. -/
abbrev Cell (nx ny nz : ℕ) := ZMod nx × ZMod ny × ZMod nz

/-- D3Q19 lattice weights `W[19]` from lbm_engine.cpp. -/
def W : Fin 19 → ℚ :=
  ![1/3,
    1/18, 1/18, 1/18, 1/18, 1/18, 1/18,
    1/36, 1/36, 1/36, 1/36, 1/36, 1/36, 1/36, 1/36, 1/36, 1/36, 1/36, 1/36]

/-- Lattice velocities `CX[19]` (x components), as rationals for the collision arithmetic. -/
def CX : Fin 19 → ℚ :=
  ![0, 1, -1, 0, 0, 0, 0, 1, -1, 1, -1, 1, -1, 1, -1, 0, 0, 0, 0]

/-- Lattice velocities `CY[19]` (y components). -/
def CY : Fin 19 → ℚ :=
  ![0, 0, 0, 1, -1, 0, 0, 1, 1, -1, -1, 0, 0, 0, 0, 1, -1, 1, -1]

/-- Lattice velocities `CZ[19]` (z components). -/
def CZ : Fin 19 → ℚ :=
  ![0, 0, 0, 0, 0, 1, -1, 0, 0, 0, 0, 1, 1, -1, -1, 1, 1, -1, -1]

/-- Integer x components of the lattice velocities, used by the streaming offsets. -/
def CXi : Fin 19 → ℤ :=
  ![0, 1, -1, 0, 0, 0, 0, 1, -1, 1, -1, 1, -1, 1, -1, 0, 0, 0, 0]

/-- Integer y components of the lattice velocities. -/
def CYi : Fin 19 → ℤ :=
  ![0, 0, 0, 1, -1, 0, 0, 1, 1, -1, -1, 0, 0, 0, 0, 1, -1, 1, -1]

/-- Integer z components of the lattice velocities. -/
def CZi : Fin 19 → ℤ :=
  ![0, 0, 0, 0, 0, 1, -1, 0, 0, 0, 0, 1, 1, -1, -1, 1, 1, -1, -1]

/-- Opposite directions `OPP[19]` used by bounce-back. -/
def OPP : Fin 19 → Fin 19 :=
  ![0, 2, 1, 4, 3, 6, 5, 10, 9, 8, 7, 14, 13, 12, 11, 18, 17, 16, 15]

/-- Collision operator selector (`CollisionMode` in lbm_engine.hpp). -/
inductive CollisionMode where
  | BGK
  | MRT
  | REGULARIZED
deriving DecidableEq

/-- State owned by `LBMEngine`: distributions `f_`, macroscopic fields `rho_`,
`ux_`, `uy_`, `uz_`, solid flags `solid_`, the species density map
`species_density_` (each vector of length `nx*ny*nz`, linearly indexed), and the
main relaxation time `tau_[0]`. -/
@[ext]
structure LBMState (nx ny nz : ℕ) where
  f : Fin 19 → Cell nx ny nz → ℚ
  rho : Cell nx ny nz → ℚ
  ux : Cell nx ny nz → ℚ
  uy : Cell nx ny nz → ℚ
  uz : Cell nx ny nz → ℚ
  solid : Cell nx ny nz → Bool
  species : List (String × List ℚ)
  tau0 : ℚ

namespace LBMEngine

variable {nx ny nz : ℕ}

/-- Linear index `idx(x,y,z) = x + nx*(y + ny*z)` into the flat per-cell vectors. -/
def linIdx [NeZero nx] [NeZero ny] [NeZero nz] (i : Cell nx ny nz) : ℕ :=
  i.1.val + nx * (i.2.1.val + ny * i.2.2.val)

/-- Construction of the engine (`LBMEngine::LBMEngine`): distributions zeroed,
`rho_` filled with 1, velocities 0, no solid cells, no species, `tau_[0] = 1`. -/
def init (nx ny nz : ℕ) : LBMState nx ny nz :=
  { f := fun _ _ => 0
    rho := fun _ => 1
    ux := fun _ => 0
    uy := fun _ => 0
    uz := fun _ => 0
    solid := fun _ => false
    species := []
    tau0 := 1 }

/-- Semantics of `std::vector::resize(n, v)`: truncate when already at least `n`
long, otherwise pad with copies of `v`. -/
def listResize (l : List ℚ) (n : ℕ) (v : ℚ) : List ℚ :=
  l.take n ++ List.replicate (n - l.length) v

/-- Semantics of `species_density_[name].resize(n, v)`: `operator[]` inserts an
empty vector when the key is missing, then the vector is resized. -/
def mapResize (l : List (String × List ℚ)) (name : String) (n : ℕ) (v : ℚ) :
    List (String × List ℚ) :=
  if (l.find? (fun p => p.1 = name)).isSome then
    l.map (fun p => if p.1 = name then (p.1, listResize p.2 n v) else p)
  else
    l ++ [(name, listResize [] n v)]

/-- `LBMEngine::initialize_uniform`: every cell is set to `rho = 1`, `u = 0`,
`f_[q] = W[q]`, and each `(name, frac)` of the argument map gets
`species_density_[name].resize(n_cells_, frac)`. -/
def initialize_uniform (fractions : List (String × ℚ)) (s : LBMState nx ny nz) :
    LBMState nx ny nz :=
  { s with
    f := fun q _ => W q
    rho := fun _ => 1
    ux := fun _ => 0
    uy := fun _ => 0
    uz := fun _ => 0
    species := fractions.foldl
      (fun m p => mapResize m p.1 (nx * ny * nz) p.2) s.species }

/-- `LBMEngine::add_species`: `species_density_[name].resize(n_cells_, 0.0)`. -/
def add_species (name : String) (s : LBMState nx ny nz) : LBMState nx ny nz :=
  { s with species := mapResize s.species name (nx * ny * nz) 0 }

/-- `LBMEngine::get_species_density`: look the species up, read the cell entry,
or return 0 when the species is unknown. -/
def get_species_density [NeZero nx] [NeZero ny] [NeZero nz]
    (s : LBMState nx ny nz) (name : String) (i : Cell nx ny nz) : ℚ :=
  match s.species.find? (fun p => p.1 = name) with
  | some p => p.2.getD (linIdx i) 0
  | none => 0

/-- `LBMEngine::get_density`. -/
def get_density (s : LBMState nx ny nz) (i : Cell nx ny nz) : ℚ := s.rho i

/-- `LBMEngine::get_velocity`. -/
def get_velocity (s : LBMState nx ny nz) (i : Cell nx ny nz) : ℚ × ℚ × ℚ :=
  (s.ux i, s.uy i, s.uz i)

/-- `LBMEngine::set_solid`. -/
def set_solid (i : Cell nx ny nz) (b : Bool) (s : LBMState nx ny nz) :
    LBMState nx ny nz :=
  { s with solid := fun j => if j = i then b else s.solid j }

/-- Equilibrium distribution as computed inline in the collision loops:
`W[q] * rho * (1 - 1.5 u² + 3 (c·u) + 4.5 (c·u)²)`. -/
def feq (q : Fin 19) (r a b c : ℚ) : ℚ :=
  W q * r * ((1 - 3/2 * (a * a + b * b + c * c)) +
    3 * (CX q * a + CY q * b + CZ q * c) +
    9/2 * (CX q * a + CY q * b + CZ q * c) * (CX q * a + CY q * b + CZ q * c))

/-- `LBMEngine::compute_macroscopic`: solid cells are skipped; otherwise
`rho = Σ_q f_q`, `u = (Σ_q c_q f_q) / (rho + 1e-10)`. -/
def compute_macroscopic [NeZero nx] [NeZero ny] [NeZero nz]
    (s : LBMState nx ny nz) : LBMState nx ny nz :=
  { s with
    rho := fun i => if s.solid i then s.rho i else ∑ q, s.f q i
    ux := fun i => if s.solid i then s.ux i else
      (∑ q, CX q * s.f q i) * (1 / ((∑ q, s.f q i) + 1 / 10000000000))
    uy := fun i => if s.solid i then s.uy i else
      (∑ q, CY q * s.f q i) * (1 / ((∑ q, s.f q i) + 1 / 10000000000))
    uz := fun i => if s.solid i then s.uz i else
      (∑ q, CZ q * s.f q i) * (1 / ((∑ q, s.f q i) + 1 / 10000000000)) }

/-- `LBMEngine::collide_bgk`: single relaxation rate `omega = 1/tau_[0]`,
`f_q += omega * (f_eq_q - f_q)`; solid cells skipped. -/
def collide_bgk (s : LBMState nx ny nz) : LBMState nx ny nz :=
  { s with
    f := fun q i => if s.solid i then s.f q i else
      s.f q i + (1 / s.tau0) * (feq q (s.rho i) (s.ux i) (s.uy i) (s.uz i) - s.f q i) }

/-- `LBMEngine::collide_mrt` (LES disabled): `nu_eff = 0.1`,
`omega_nu = 1/(3 nu_eff + 0.5)`, directions `q < 3` relax at rate 1; solid
cells skipped. -/
def collide_mrt (s : LBMState nx ny nz) : LBMState nx ny nz :=
  { s with
    f := fun q i => if s.solid i then s.f q i else
      s.f q i + (if q.val < 3 then 1 else 1 / (3 * (1/10) + 1/2)) *
        (feq q (s.rho i) (s.ux i) (s.uy i) (s.uz i) - s.f q i) }

/-- `LBMEngine::stream`: pull scheme with periodic wrap, direction `q` at cell
`i` is read from the neighbor offset by `-c_q`, then the buffers are swapped. -/
def stream [NeZero nx] [NeZero ny] [NeZero nz] (s : LBMState nx ny nz) :
    LBMState nx ny nz :=
  { s with
    f := fun q i => s.f q (i.1 - (CXi q : ZMod nx), i.2.1 - (CYi q : ZMod ny),
      i.2.2 - (CZi q : ZMod nz)) }

/-- One in-place `std::swap(f[a], f[b])` on the per-cell direction vector. -/
def swapPair (g : Fin 19 → ℚ) (a b : Fin 19) : Fin 19 → ℚ :=
  fun q => if q = a then g b else if q = b then g a else g q

/-- The sequential bounce-back loop `for q = 1..18: swap(f[q], f[OPP[q]])`. -/
def bounceBack (g : Fin 19 → ℚ) : Fin 19 → ℚ :=
  ((List.finRange 19).drop 1).foldl (fun h q => swapPair h q (OPP q)) g

/-- `LBMEngine::apply_boundary_conditions`: non-solid cells untouched; solid
cells run the bounce-back swap loop. -/
def apply_boundary_conditions (s : LBMState nx ny nz) : LBMState nx ny nz :=
  { s with
    f := fun q i => if s.solid i then bounceBack (fun p => s.f p i) q else s.f q i }

/-- Host-path `LBMEngine::step`: compute macroscopic moments, collide (by
`collision_mode`), stream, apply bounce-back. -/
def step [NeZero nx] [NeZero ny] [NeZero nz] (mode : CollisionMode)
    (s : LBMState nx ny nz) : LBMState nx ny nz :=
  apply_boundary_conditions (stream
    (match mode with
     | CollisionMode.BGK => collide_bgk (compute_macroscopic s)
     | CollisionMode.MRT => collide_mrt (compute_macroscopic s)
     | CollisionMode.REGULARIZED => collide_mrt (compute_macroscopic s)))

/-- Iterated steps. -/
def stepN [NeZero nx] [NeZero ny] [NeZero nz] (mode : CollisionMode) (n : ℕ)
    (s : LBMState nx ny nz) : LBMState nx ny nz :=
  Nat.rec s (fun _ t => step mode t) n

/-- Grid-wide sum of all distributions, `Σ_cells Σ_q f_q`. -/
def totalMass [NeZero nx] [NeZero ny] [NeZero nz] (s : LBMState nx ny nz) : ℚ :=
  ∑ i : Cell nx ny nz, ∑ q, s.f q i

/-- The equilibrium distributions of any `(rho, u)` sum to `rho`: the lattice
weights sum to 1, odd moments vanish, and the second moment cancels the
`-1.5 u²` term. -/
theorem sum_feq (r a b c : ℚ) : ∑ q, feq q r a b c = r := by
  simp only [feq, W, CX, CY, CZ, Fin.sum_univ_succ, Fin.sum_univ_zero,
    Matrix.cons_val_zero, Matrix.cons_val_succ]
  ring

/-- The D3Q19 weights sum to 1. -/
theorem sum_W : ∑ q, W q = 1 := by
  simp only [W, Fin.sum_univ_succ, Fin.sum_univ_zero,
    Matrix.cons_val_zero, Matrix.cons_val_succ]
  norm_num

/-- The first x-moment of the weights vanishes. -/
theorem sum_CX_W : ∑ q, CX q * W q = 0 := by
  simp only [W, CX, Fin.sum_univ_succ, Fin.sum_univ_zero,
    Matrix.cons_val_zero, Matrix.cons_val_succ]
  norm_num

/-- The first y-moment of the weights vanishes. -/
theorem sum_CY_W : ∑ q, CY q * W q = 0 := by
  simp only [W, CY, Fin.sum_univ_succ, Fin.sum_univ_zero,
    Matrix.cons_val_zero, Matrix.cons_val_succ]
  norm_num

/-- The first z-moment of the weights vanishes. -/
theorem sum_CZ_W : ∑ q, CZ q * W q = 0 := by
  simp only [W, CZ, Fin.sum_univ_succ, Fin.sum_univ_zero,
    Matrix.cons_val_zero, Matrix.cons_val_succ]
  norm_num

variable {nx ny nz : ℕ} [NeZero nx] [NeZero ny] [NeZero nz]

/-- Summing a cell function over the periodically shifted grid equals summing it
over the grid: the pull-shift is a bijection of the torus. -/
theorem sum_cell_shift (g : Cell nx ny nz → ℚ) (cx : ZMod nx) (cy : ZMod ny)
    (cz : ZMod nz) :
    ∑ i : Cell nx ny nz, g (i.1 - cx, i.2.1 - cy, i.2.2 - cz) = ∑ i, g i :=
  Equiv.sum_comp ((Equiv.subRight cx).prodCongr
    ((Equiv.subRight cy).prodCongr (Equiv.subRight cz))) g

/-- A step does not modify the solid flags. -/
theorem step_solid (mode : CollisionMode) (s : LBMState nx ny nz) :
    (step mode s).solid = s.solid := by
  cases mode <;> rfl

/-- Iterated steps do not modify the solid flags. -/
theorem stepN_solid (mode : CollisionMode) (n : ℕ) (s : LBMState nx ny nz) :
    (stepN mode n s).solid = s.solid := by
  induction n with
  | zero => rfl
  | succ k ih => rw [stepN, step_solid]; exact ih

/-- On a non-solid cell, BGK collision right after the macroscopic update
preserves the per-cell sum of the distributions. -/
theorem sum_collide_bgk_macro (s : LBMState nx ny nz) (i : Cell nx ny nz)
    (hi : s.solid i = false) :
    ∑ q, (collide_bgk (compute_macroscopic s)).f q i = ∑ q, s.f q i := by
  simp only [collide_bgk, compute_macroscopic, hi, Bool.false_eq_true, if_false]
  rw [Finset.sum_add_distrib, ← Finset.mul_sum, Finset.sum_sub_distrib, sum_feq]
  ring

/-- One BGK step on a grid with no solid cells preserves the total mass. -/
theorem totalMass_step_bgk (s : LBMState nx ny nz) (h : ∀ i, s.solid i = false) :
    totalMass (step CollisionMode.BGK s) = totalMass s := by
  have hbc : ∀ q i, (step CollisionMode.BGK s).f q i =
      (stream (collide_bgk (compute_macroscopic s))).f q i := by
    intro q i
    have hs : (collide_bgk (compute_macroscopic s)).solid i = false := h i
    simp only [step, apply_boundary_conditions, stream, hs, Bool.false_eq_true,
      if_false]
  calc totalMass (step CollisionMode.BGK s)
      = ∑ i : Cell nx ny nz, ∑ q,
          (stream (collide_bgk (compute_macroscopic s))).f q i := by
        unfold totalMass
        exact Finset.sum_congr rfl fun i _ => Finset.sum_congr rfl fun q _ => hbc q i
    _ = ∑ q, ∑ i : Cell nx ny nz,
          (collide_bgk (compute_macroscopic s)).f q
            (i.1 - (CXi q : ZMod nx), i.2.1 - (CYi q : ZMod ny),
             i.2.2 - (CZi q : ZMod nz)) := by
        rw [Finset.sum_comm]; rfl
    _ = ∑ q, ∑ i : Cell nx ny nz, (collide_bgk (compute_macroscopic s)).f q i := by
        exact Finset.sum_congr rfl fun q _ =>
          sum_cell_shift (fun j => (collide_bgk (compute_macroscopic s)).f q j) _ _ _
    _ = ∑ i : Cell nx ny nz, ∑ q, (collide_bgk (compute_macroscopic s)).f q i := by
        rw [Finset.sum_comm]
    _ = ∑ i : Cell nx ny nz, ∑ q, s.f q i := by
        exact Finset.sum_congr rfl fun i _ => sum_collide_bgk_macro s i (h i)
    _ = totalMass s := rfl

/-- After a BGK step, the density field of a non-solid cell holds the moment of
the pre-step distributions. -/
theorem rho_step_bgk (s : LBMState nx ny nz) (i : Cell nx ny nz)
    (hi : s.solid i = false) :
    (step CollisionMode.BGK s).rho i = ∑ q, s.f q i := by
  simp only [step, apply_boundary_conditions, stream, collide_bgk,
    compute_macroscopic, hi, Bool.false_eq_true, if_false]

/-- Unfolding one iterate. -/
theorem stepN_succ (mode : CollisionMode) (n : ℕ) (s : LBMState nx ny nz) :
    stepN mode (n + 1) s = step mode (stepN mode n s) := rfl

end LBMEngine

end Fluids

end Isolated

namespace Isolated

namespace Fluids

namespace LBMEngine

variable {nx ny nz : ℕ} [NeZero nx] [NeZero ny] [NeZero nz]

/-- C1: on a closed grid (periodic boundaries, no solid cells) the grid-wide
sum of the distributions is invariant across `LBMEngine::step()` under BGK
collision and pull-scheme streaming, for any number of steps (in particular at
least 1000), and the sum over all cells of the recomputed density `rho` equals
that conserved total. -/
theorem C1_mass_conservation (s : LBMState nx ny nz)
    (h : ∀ i, s.solid i = false) (n : ℕ) :
    totalMass (stepN CollisionMode.BGK n s) = totalMass s ∧
    (∑ i : Cell nx ny nz, (stepN CollisionMode.BGK (n + 1) s).rho i) =
      totalMass s := by
  have hsolid : ∀ m i, (stepN CollisionMode.BGK m s).solid i = false := by
    intro m i; rw [stepN_solid]; exact h i
  have hmass : ∀ m, totalMass (stepN CollisionMode.BGK m s) = totalMass s := by
    intro m
    induction m with
    | zero => rfl
    | succ k ih =>
      rw [stepN_succ, totalMass_step_bgk _ (hsolid k)]
      exact ih
  refine ⟨hmass n, ?_⟩
  rw [stepN_succ]
  calc ∑ i : Cell nx ny nz, (step CollisionMode.BGK (stepN CollisionMode.BGK n s)).rho i
      = ∑ i : Cell nx ny nz, ∑ q, (stepN CollisionMode.BGK n s).f q i :=
        Finset.sum_congr rfl fun i _ => rho_step_bgk _ i (hsolid n i)
    _ = totalMass (stepN CollisionMode.BGK n s) := rfl
    _ = totalMass s := hmass n

/-- A concrete 2x1x1 grid state with no solid cells and a non-uniform
distribution field, used to witness the mass-conservation theorem. -/
def c1State : LBMState 2 1 1 :=
  { f := fun q i => (q.val : ℚ) / 100 + (if i.1 = 0 then 1 else 2) / 10
    rho := fun _ => 1
    ux := fun _ => 0
    uy := fun _ => 0
    uz := fun _ => 0
    solid := fun _ => false
    species := []
    tau0 := 1 }

/-- Witness: the mass-conservation theorem applied at a concrete grid for 1000
steps. -/
theorem C1_mass_conservation_witness :
    totalMass (stepN CollisionMode.BGK 1000 c1State) = totalMass c1State ∧
    (∑ i : Cell 2 1 1, (stepN CollisionMode.BGK 1001 c1State).rho i) =
      totalMass c1State :=
  C1_mass_conservation c1State (fun _ => rfl) 1000

/-- The macroscopic pass fixes the uniform rest state: density 1, velocity 0. -/
theorem compute_macroscopic_uniform (fr : List (String × ℚ)) :
    compute_macroscopic (initialize_uniform fr (init nx ny nz)) =
      initialize_uniform fr (init nx ny nz) := by
  refine LBMState.ext rfl ?_ ?_ ?_ ?_ rfl rfl rfl
  · funext i
    show ∑ q, W q = 1
    exact sum_W
  · funext i
    show (∑ q, CX q * W q) * (1 / ((∑ q, W q) + 1 / 10000000000)) = 0
    rw [sum_CX_W, zero_mul]
  · funext i
    show (∑ q, CY q * W q) * (1 / ((∑ q, W q) + 1 / 10000000000)) = 0
    rw [sum_CY_W, zero_mul]
  · funext i
    show (∑ q, CZ q * W q) * (1 / ((∑ q, W q) + 1 / 10000000000)) = 0
    rw [sum_CZ_W, zero_mul]

/-- BGK collision fixes the uniform rest state: each equilibrium value equals
the weight, so the relaxation adds zero. -/
theorem collide_bgk_uniform (fr : List (String × ℚ)) :
    collide_bgk (initialize_uniform fr (init nx ny nz)) =
      initialize_uniform fr (init nx ny nz) := by
  refine LBMState.ext ?_ rfl rfl rfl rfl rfl rfl rfl
  funext q i
  show W q + 1 / 1 * (feq q 1 0 0 0 - W q) = W q
  simp only [feq]
  ring

/-- C7: the uniform at-rest field produced by `initialize_uniform` is an exact
fixed point of `step()` under BGK collision: after any number of steps the
whole engine state (in particular every distribution `f_q`, which stays `W_q`)
is unchanged. -/
theorem C7_uniform_fixed_point (fr : List (String × ℚ)) (n : ℕ) :
    stepN CollisionMode.BGK n (initialize_uniform fr (init nx ny nz)) =
      initialize_uniform fr (init nx ny nz) ∧
    ∀ q i, (stepN CollisionMode.BGK n
      (initialize_uniform fr (init nx ny nz))).f q i = W q := by
  have hstep : step CollisionMode.BGK (initialize_uniform fr (init nx ny nz)) =
      initialize_uniform fr (init nx ny nz) := by
    show apply_boundary_conditions (stream (collide_bgk
      (compute_macroscopic (initialize_uniform fr (init nx ny nz))))) =
      initialize_uniform fr (init nx ny nz)
    rw [compute_macroscopic_uniform, collide_bgk_uniform]
    rfl
  have hfix : ∀ m, stepN CollisionMode.BGK m
      (initialize_uniform fr (init nx ny nz)) =
      initialize_uniform fr (init nx ny nz) := by
    intro m
    induction m with
    | zero => rfl
    | succ k ih => rw [stepN_succ, ih, hstep]
  exact ⟨hfix n, fun q i => by rw [hfix n]; rfl⟩

/-- Witness: the fixed-point theorem applied at a concrete 2x2x1 grid for 1000
steps with one seeded species. -/
theorem C7_uniform_fixed_point_witness :
    stepN CollisionMode.BGK 1000
      (initialize_uniform [("oxygen", 21/100)] (init 2 2 1)) =
      initialize_uniform [("oxygen", 21/100)] (init 2 2 1) ∧
    ∀ q i, (stepN CollisionMode.BGK 1000
      (initialize_uniform [("oxygen", 21/100)] (init 2 2 1))).f q i = W q :=
  C7_uniform_fixed_point [("oxygen", 21/100)] 1000

/-- `linIdx` lands inside a vector of length `nx*ny*nz`. -/
theorem linIdx_lt (i : Cell nx ny nz) : linIdx i < nx * ny * nz := by
  obtain ⟨x, y, z⟩ := i
  have hx : x.val < nx := ZMod.val_lt x
  have hy : y.val < ny := ZMod.val_lt y
  have hz : z.val < nz := ZMod.val_lt z
  show x.val + nx * (y.val + ny * z.val) < nx * ny * nz
  have h1 : y.val + ny * z.val < ny * nz := by
    calc y.val + ny * z.val < ny + ny * z.val := by omega
      _ = ny * (z.val + 1) := by ring
      _ ≤ ny * nz := Nat.mul_le_mul_left ny (by omega)
  calc x.val + nx * (y.val + ny * z.val)
      < nx + nx * (y.val + ny * z.val) := by omega
    _ = nx * (y.val + ny * z.val + 1) := by ring
    _ ≤ nx * (ny * nz) := Nat.mul_le_mul_left nx (by omega)
    _ = nx * ny * nz := (mul_assoc nx ny nz).symm

/-- Resizing an entry of a different key does not change what a lookup finds. -/
theorem find?_mapResize_ne (m : List (String × List ℚ)) (b : String) (N : ℕ)
    (v : ℚ) (name : String) (hb : b ≠ name) :
    (mapResize m b N v).find? (fun p => p.1 = name) =
      m.find? (fun p => p.1 = name) := by
  unfold mapResize
  split
  · rw [List.find?_map]
    have hpred : ((fun p : String × List ℚ => decide (p.1 = name)) ∘
        (fun p => if p.1 = b then (p.1, listResize p.2 N v) else p)) =
        (fun p : String × List ℚ => decide (p.1 = name)) := by
      funext p
      by_cases h : p.1 = b <;> simp [h]
    rw [show ((fun p : String × List ℚ => decide (p.1 = name)) ∘
        (fun p => if p.1 = b then (p.1, listResize p.2 N v) else p)) =
        (fun p : String × List ℚ => decide (p.1 = name)) from hpred]
    cases hfind : m.find? (fun r => r.1 = name) with
    | none => rfl
    | some pr =>
      have hp1 := List.find?_some hfind
      simp only [decide_eq_true_eq] at hp1
      have hpb : pr.1 ≠ b := fun hc => hb (hc ▸ hp1)
      simp [hpb]
  · rw [List.find?_append]
    have hone : List.find? (fun p : String × List ℚ => p.1 = name)
        [(b, listResize [] N v)] = none := by
      simp [List.find?, hb]
    rw [hone]
    cases m.find? (fun p => p.1 = name) <;> rfl

/-- Resizing under a different key cannot introduce the looked-up key. -/
theorem not_mem_keys_mapResize (m : List (String × List ℚ)) (b : String)
    (N : ℕ) (v : ℚ) (name : String) (hb : b ≠ name)
    (h : name ∉ m.map Prod.fst) :
    name ∉ (mapResize m b N v).map Prod.fst := by
  unfold mapResize
  split
  · intro hmem
    rw [List.map_map] at hmem
    obtain ⟨p, hp, hval⟩ := List.mem_map.mp hmem
    have : p.1 = name := by
      by_cases hc : p.1 = b <;> simpa [Function.comp, hc] using hval
    exact h (List.mem_map.mpr ⟨p, hp, this⟩)
  · intro hmem
    rw [List.map_append] at hmem
    rcases List.mem_append.mp hmem with hl | hr
    · exact h hl
    · simp at hr
      exact hb hr.symm

/-- Folding resizes whose keys all differ from `name` leaves the `name` lookup
unchanged. -/
theorem find?_foldl_not_mem (l : List (String × ℚ)) (N : ℕ)
    (m : List (String × List ℚ)) (name : String)
    (h : ∀ p ∈ l, p.1 ≠ name) :
    ((l.foldl (fun acc p => mapResize acc p.1 N p.2) m).find?
      (fun p => p.1 = name)) = m.find? (fun p => p.1 = name) := by
  induction l generalizing m with
  | nil => rfl
  | cons a rest ih =>
    rw [List.foldl_cons, ih _ (fun p hp => h p (List.mem_cons_of_mem a hp))]
    exact find?_mapResize_ne _ _ _ _ _ (h a (List.mem_cons_self a rest))

/-- After the `initialize_uniform` fold, a fraction key that was not already
allocated holds a freshly filled vector. -/
theorem find?_foldl_mem (l : List (String × ℚ)) (N : ℕ)
    (m : List (String × List ℚ)) (name : String) (frac : ℚ)
    (hnodup : (l.map Prod.fst).Nodup) (hmem : (name, frac) ∈ l)
    (hnew : name ∉ m.map Prod.fst) :
    ((l.foldl (fun acc p => mapResize acc p.1 N p.2) m).find?
      (fun p => p.1 = name)) = some (name, List.replicate N frac) := by
  induction l generalizing m with
  | nil => cases hmem
  | cons a rest ih =>
    rw [List.map_cons, List.nodup_cons] at hnodup
    rw [List.foldl_cons]
    rcases List.mem_cons.mp hmem with heq | hrest
    · obtain ⟨ha1, ha2⟩ : a.1 = name ∧ a.2 = frac := by
        rw [← heq]
        exact ⟨rfl, rfl⟩
      have hfind : m.find? (fun p => p.1 = name) = none :=
        List.find?_eq_none.mpr (fun x hx => by
          simp only [decide_eq_true_eq]
          exact fun hx1 => hnew (List.mem_map.mpr ⟨x, hx, hx1⟩))
      have hm1 : mapResize m a.1 N a.2 = m ++ [(name, List.replicate N frac)] := by
        rw [ha1, ha2]
        unfold mapResize
        rw [hfind]
        simp [listResize]
      rw [hm1]
      have hrest_ne : ∀ p ∈ rest, p.1 ≠ name := by
        intro p hp hpname
        exact hnodup.1 (by rw [ha1]; exact List.mem_map.mpr ⟨p, hp, hpname⟩)
      rw [find?_foldl_not_mem rest N _ name hrest_ne, List.find?_append, hfind]
      simp [List.find?]
    · have hkey : name ∈ rest.map Prod.fst :=
        List.mem_map.mpr ⟨(name, frac), hrest, rfl⟩
      have hne : a.1 ≠ name := fun h => hnodup.1 (h ▸ hkey)
      exact ih (mapResize m a.1 N a.2) hnodup.2 hrest
        (not_mem_keys_mapResize m a.1 N a.2 name hne hnew)

/-- C8 is corrected: seeding a species fraction through `initialize_uniform`
for a species that had already been registered via `add_species` is a no-op
(`resize` at unchanged length does not refill), so its density reads back 0,
not the requested fraction. -/
theorem C8_counterexample :
    get_species_density
      (initialize_uniform [("oxygen", 21/100)] (add_species "oxygen" (init 1 1 1)))
      "oxygen" (0, 0, 0) = 0 ∧ (0 : ℚ) ≠ 21/100 := by
  refine ⟨rfl, by norm_num⟩

/-- C8 amended: after `initialize_uniform(fractions)` every cell is at rest
equilibrium (`rho = 1`, `u = 0`, `f_q = W_q`); a `(name, frac)` pair whose
species had not already been allocated reads back `frac` at every cell, while
a species previously registered via `add_species` keeps its old (zero-filled)
vector. -/
theorem C8_initialize_uniform (fractions : List (String × ℚ))
    (s : LBMState nx ny nz) (name : String) (frac : ℚ)
    (hnodup : (fractions.map Prod.fst).Nodup)
    (hmem : (name, frac) ∈ fractions)
    (hnew : name ∉ s.species.map Prod.fst)
    (i : Cell nx ny nz) (q : Fin 19) :
    (initialize_uniform fractions s).f q i = W q ∧
    (initialize_uniform fractions s).rho i = 1 ∧
    (initialize_uniform fractions s).ux i = 0 ∧
    (initialize_uniform fractions s).uy i = 0 ∧
    (initialize_uniform fractions s).uz i = 0 ∧
    get_species_density (initialize_uniform fractions s) name i = frac := by
  refine ⟨rfl, rfl, rfl, rfl, rfl, ?_⟩
  show (match ((fractions.foldl (fun m p => mapResize m p.1 (nx * ny * nz) p.2)
      s.species).find? (fun p => p.1 = name)) with
    | some p => p.2.getD (linIdx i) 0
    | none => 0) = frac
  rw [find?_foldl_mem fractions (nx * ny * nz) s.species name frac hnodup hmem hnew]
  show (List.replicate (nx * ny * nz) frac).getD (linIdx i) 0 = frac
  rw [List.getD_eq_getElem?_getD, List.getElem?_replicate, if_pos (linIdx_lt i)]
  rfl

/-- Witness: `initialize_uniform` on a fresh engine with two seeded species. -/
theorem C8_initialize_uniform_witness :
    (initialize_uniform [("oxygen", 21/100), ("nitrogen", 39/50)] (init 2 1 1)).f
        3 (0, 0, 0) = W 3 ∧
    (initialize_uniform [("oxygen", 21/100), ("nitrogen", 39/50)] (init 2 1 1)).rho
        (0, 0, 0) = 1 ∧
    (initialize_uniform [("oxygen", 21/100), ("nitrogen", 39/50)] (init 2 1 1)).ux
        (0, 0, 0) = 0 ∧
    (initialize_uniform [("oxygen", 21/100), ("nitrogen", 39/50)] (init 2 1 1)).uy
        (0, 0, 0) = 0 ∧
    (initialize_uniform [("oxygen", 21/100), ("nitrogen", 39/50)] (init 2 1 1)).uz
        (0, 0, 0) = 0 ∧
    get_species_density
      (initialize_uniform [("oxygen", 21/100), ("nitrogen", 39/50)] (init 2 1 1))
      "oxygen" (0, 0, 0) = 21/100 :=
  C8_initialize_uniform [("oxygen", 21/100), ("nitrogen", 39/50)] (init 2 1 1)
    "oxygen" (21/100) (by simp) (List.mem_cons_self _ _) (by simp [init]) (0, 0, 0) 3

/-- One step keeps the macroscopic fields of a solid cell unchanged. -/
theorem step_macroscopic_solid (mode : CollisionMode) (s : LBMState nx ny nz)
    (i : Cell nx ny nz) (hi : s.solid i = true) :
    (step mode s).rho i = s.rho i ∧ (step mode s).ux i = s.ux i ∧
    (step mode s).uy i = s.uy i ∧ (step mode s).uz i = s.uz i := by
  cases mode <;>
    simp [step, apply_boundary_conditions, stream, collide_bgk, collide_mrt,
      compute_macroscopic, hi]

/-- C9: a cell flagged solid via `set_solid` keeps its macroscopic fields
through any number of steps under either collision operator:
`compute_macroscopic` skips it, both collision operators leave its
distributions alone, and `get_density`/`get_velocity` keep returning the values
held when the cell was flagged. -/
theorem C9_solid_cells_frozen (mode : CollisionMode) (s : LBMState nx ny nz)
    (i : Cell nx ny nz) (hi : s.solid i = true) (n : ℕ) (q : Fin 19) :
    get_density (stepN mode n s) i = get_density s i ∧
    get_velocity (stepN mode n s) i = get_velocity s i ∧
    (compute_macroscopic s).rho i = s.rho i ∧
    (collide_bgk s).f q i = s.f q i ∧
    (collide_mrt s).f q i = s.f q i := by
  have hsolid : ∀ m, (stepN mode m s).solid i = true := by
    intro m; rw [stepN_solid]; exact hi
  have hmac : ∀ m, (stepN mode m s).rho i = s.rho i ∧
      (stepN mode m s).ux i = s.ux i ∧ (stepN mode m s).uy i = s.uy i ∧
      (stepN mode m s).uz i = s.uz i := by
    intro m
    induction m with
    | zero => exact ⟨rfl, rfl, rfl, rfl⟩
    | succ k ih =>
      have h1 := step_macroscopic_solid mode (stepN mode k s) i (hsolid k)
      rw [stepN_succ]
      exact ⟨h1.1.trans ih.1, (h1.2.1).trans ih.2.1, (h1.2.2.1).trans ih.2.2.1,
        (h1.2.2.2).trans ih.2.2.2⟩
  refine ⟨(hmac n).1, ?_, by simp [compute_macroscopic, hi],
    by simp [collide_bgk, hi], by simp [collide_mrt, hi]⟩
  show ((stepN mode n s).ux i, (stepN mode n s).uy i, (stepN mode n s).uz i) =
    (s.ux i, s.uy i, s.uz i)
  rw [(hmac n).2.1, (hmac n).2.2.1, (hmac n).2.2.2]

/-- A concrete 2x1x1 grid state whose cells are all solid, with distinguished
macroscopic values. -/
def c9State : LBMState 2 1 1 :=
  { f := fun q i => (q.val : ℚ) / 50 + (if i.1 = 0 then 3 else 5) / 10
    rho := fun _ => 7/5
    ux := fun _ => 1/25
    uy := fun _ => 0
    uz := fun _ => 0
    solid := fun _ => true
    species := []
    tau0 := 1 }

/-- Witness: the solid-cell frame theorem applied at a concrete all-solid grid
for 500 steps. -/
theorem C9_solid_cells_frozen_witness :
    get_density (stepN CollisionMode.MRT 500 c9State) (0, 0, 0) =
      get_density c9State (0, 0, 0) ∧
    get_velocity (stepN CollisionMode.MRT 500 c9State) (0, 0, 0) =
      get_velocity c9State (0, 0, 0) ∧
    (compute_macroscopic c9State).rho (0, 0, 0) = c9State.rho (0, 0, 0) ∧
    (collide_bgk c9State).f 3 (0, 0, 0) = c9State.f 3 (0, 0, 0) ∧
    (collide_mrt c9State).f 3 (0, 0, 0) = c9State.f 3 (0, 0, 0) :=
  C9_solid_cells_frozen CollisionMode.MRT c9State (0, 0, 0) rfl 500 3

end LBMEngine

end Fluids

end Isolated

namespace Isolated

namespace Thermal

/-- Phase state enumeration from heat_engine.hpp. -/
inductive Phase where
  | SOLID
  | MELTING
  | LIQUID
  | BOILING
  | GAS
deriving DecidableEq

/-- Thermal properties of a material (materials.hpp). -/
structure MaterialProperties where
  name : String
  thermal_conductivity : ℚ
  specific_heat : ℚ
  density : ℚ
  emissivity : ℚ
  melting_point : ℚ
  boiling_point : ℚ
  latent_heat_fusion : ℚ
  latent_heat_vaporization : ℚ
deriving DecidableEq

/-- The standard material database `MATERIALS` (materials.hpp), keyed by name. -/
def MATERIALS : List (String × MaterialProperties) :=
  [("air", ⟨"air", 0.026, 1005, 1.225, 0.0, 0, 0, 0, 0⟩),
   ("water", ⟨"water", 0.6, 4186, 1000, 0.95, 273.15, 373.15, 334000, 2260000⟩),
   ("magma", ⟨"magma", 1.5, 1500, 2700, 0.95, 1073, 1573, 400000, 0⟩),
   ("ice", ⟨"ice", 2.2, 2090, 917, 0.97, 273.15, 373.15, 334000, 2260000⟩),
   ("co2_ice", ⟨"co2_ice", 0.5, 850, 1560, 0.9, 194.65, 194.65, 571000, 571000⟩),
   ("granite", ⟨"granite", 2.5, 790, 2700, 0.9, 1500, 3000, 0, 0⟩),
   ("basalt", ⟨"basalt", 1.7, 840, 2900, 0.9, 1473, 1573, 400000, 0⟩),
   ("limestone", ⟨"limestone", 1.3, 840, 2600, 0.9, 1600, 2850, 0, 0⟩),
   ("sandstone", ⟨"sandstone", 1.7, 920, 2300, 0.9, 1500, 2800, 0, 0⟩),
   ("shale", ⟨"shale", 1.5, 800, 2400, 0.9, 1400, 2700, 0, 0⟩),
   ("marble", ⟨"marble", 2.8, 880, 2700, 0.9, 1500, 2950, 0, 0⟩),
   ("regolith", ⟨"regolith", 0.02, 800, 1500, 0.92, 1473, 3000, 300000, 0⟩),
   ("soil", ⟨"soil", 0.5, 800, 1500, 0.9, 1200, 2500, 0, 0⟩),
   ("steel", ⟨"steel", 50.0, 500, 7850, 0.3, 1800, 3000, 270000, 0⟩),
   ("flesh", ⟨"flesh", 0.5, 3500, 1050, 0.98, 0, 0, 0, 0⟩),
   ("iron_ore", ⟨"iron_ore", 2.0, 700, 4500, 0.85, 1538, 3000, 0, 0⟩),
   ("copper_ore", ⟨"copper_ore", 2.5, 500, 5000, 0.85, 1085, 2562, 0, 0⟩),
   ("gold_ore", ⟨"gold_ore", 3.0, 500, 5500, 0.85, 1064, 2856, 0, 0⟩),
   ("coal", ⟨"coal", 0.2, 1300, 1400, 0.9, 0, 0, 0, 0⟩),
   ("uranium_ore", ⟨"uranium_ore", 2.5, 700, 3000, 0.85, 1408, 4404, 0, 0⟩)]

/-- Stefan-Boltzmann constant from constants.hpp. -/
def STEFAN_BOLTZMANN : ℚ := 5.670374419e-8

/-- Room temperature reference from constants.hpp. -/
def ROOM_TEMP : ℚ := 293.15

/-- Grid cell of the dense thermal grid; conduction and advection use clamped
(non-periodic) interior stencils. -/
abbrev TCell (nx ny nz : ℕ) := Fin nx × Fin ny × Fin nz

/-- Thermal engine configuration (heat_engine.hpp defaults: `dx = 1`,
radiation enabled above 500 K). -/
structure ThermalConfig where
  dx : ℚ
  enable_radiation : Bool
  radiation_threshold : ℚ

/-- The default-constructed `ThermalConfig`. -/
def defaultConfig : ThermalConfig :=
  { dx := 1, enable_radiation := true, radiation_threshold := 500 }

/-- State owned by `ThermalEngine`: per-cell temperature, transition enthalpy,
phase, material id, per-cell material properties, the transient and persistent
heat-source accumulators, and the fluid velocity used for advection. -/
@[ext]
structure ThermalState (nx ny nz : ℕ) where
  temperature : TCell nx ny nz → ℚ
  enthalpy : TCell nx ny nz → ℚ
  phase : TCell nx ny nz → Phase
  material_id : TCell nx ny nz → ℕ
  material_list : List String
  k : TCell nx ny nz → ℚ
  cp : TCell nx ny nz → ℚ
  rho : TCell nx ny nz → ℚ
  emissivity : TCell nx ny nz → ℚ
  heat_sources : TCell nx ny nz → ℚ
  decay_heat : TCell nx ny nz → ℚ
  fluid_ux : TCell nx ny nz → ℚ
  fluid_uy : TCell nx ny nz → ℚ

namespace ThermalEngine

variable {nx ny nz : ℕ}

/-- Construction of the engine (`ThermalEngine::ThermalEngine`): room
temperature everywhere, phase GAS, all cells material 0 = "air" with the air
properties, no sources. -/
def init (nx ny nz : ℕ) : ThermalState nx ny nz :=
  { temperature := fun _ => ROOM_TEMP
    enthalpy := fun _ => 0
    phase := fun _ => Phase.GAS
    material_id := fun _ => 0
    material_list := ["air"]
    k := fun _ => 0.026
    cp := fun _ => 1005
    rho := fun _ => 1.225
    emissivity := fun _ => 0.0
    heat_sources := fun _ => 0
    decay_heat := fun _ => 0
    fluid_ux := fun _ => 0
    fluid_uy := fun _ => 0 }

/-- In-bounds read of a cell field by raw coordinates; every use in the passes
below is guarded to be in bounds, matching the loop limits of the source. -/
def getAt (g : TCell nx ny nz → ℚ) (x y z : ℕ) : ℚ :=
  if h : x < nx ∧ y < ny ∧ z < nz then g (⟨x, h.1⟩, ⟨y, h.2.1⟩, ⟨z, h.2.2⟩) else 0

/-- Temperature increment of `ThermalEngine::step_conduction` at one cell:
interior cells (`1 <= x <= nx-2`, `1 <= y <= ny-2`, all z) get
`alpha * laplacian * dt` with the 6-point stencil, the z part only on 3-D
interior cells. -/
def conductionDelta (dx dt : ℚ) (T k rho cp : TCell nx ny nz → ℚ)
    (c : TCell nx ny nz) : ℚ :=
  let x := c.1.val
  let y := c.2.1.val
  let z := c.2.2.val
  if 1 ≤ x ∧ x + 1 < nx ∧ 1 ≤ y ∧ y + 1 < ny then
    let alpha := k c / (rho c * cp c)
    let lap :=
      (getAt T (x + 1) y z + getAt T (x - 1) y z + getAt T x (y + 1) z +
        getAt T x (y - 1) z - 4 * T c) / (dx * dx) +
      (if 1 < nz ∧ 0 < z ∧ z + 1 < nz then
        (getAt T x y (z + 1) + getAt T x y (z - 1) - 2 * T c) / (dx * dx)
      else 0)
    alpha * lap * dt
  else 0

/-- `ThermalEngine::step_conduction`: simultaneous (buffered) update. -/
def step_conduction (cfg : ThermalConfig) (dt : ℚ) (s : ThermalState nx ny nz) :
    ThermalState nx ny nz :=
  { s with temperature := fun c =>
      s.temperature c + conductionDelta cfg.dx dt s.temperature s.k s.rho s.cp c }

/-- Temperature increment of `ThermalEngine::step_advection` at one cell:
first-order upwind differencing against the stored fluid velocity. -/
def advectionDelta (dx dt : ℚ) (T ux uy : TCell nx ny nz → ℚ)
    (c : TCell nx ny nz) : ℚ :=
  let x := c.1.val
  let y := c.2.1.val
  let z := c.2.2.val
  if 1 ≤ x ∧ x + 1 < nx ∧ 1 ≤ y ∧ y + 1 < ny then
    let u := ux c
    let v := uy c
    let dTdx := if u > 0 then (T c - getAt T (x - 1) y z) / dx
      else (getAt T (x + 1) y z - T c) / dx;
    let dTdy := if v > 0 then (T c - getAt T x (y - 1) z) / dx
      else (getAt T x (y + 1) z - T c) / dx;
    -((u * dTdx + v * dTdy) * dt)
  else 0

/-- `ThermalEngine::step_advection`. -/
def step_advection (cfg : ThermalConfig) (dt : ℚ) (s : ThermalState nx ny nz) :
    ThermalState nx ny nz :=
  { s with temperature := fun c =>
      s.temperature c + advectionDelta cfg.dx dt s.temperature s.fluid_ux s.fluid_uy c }

/-- Temperature increment of `ThermalEngine::step_sources` at one cell: a
nonzero accumulated source with positive `rho*cp` adds
`source * dt / (rho * cp)`. -/
def sourcesDelta (dt : ℚ) (hs rho cp : TCell nx ny nz → ℚ)
    (c : TCell nx ny nz) : ℚ :=
  if hs c ≠ 0 then
    (if rho c * cp c > 0 then hs c * dt / (rho c * cp c) else 0)
  else 0

/-- `ThermalEngine::step_sources`. Note that `heat_sources_` is read but not
written. -/
def step_sources (dt : ℚ) (s : ThermalState nx ny nz) : ThermalState nx ny nz :=
  { s with temperature := fun c =>
      s.temperature c + sourcesDelta dt s.heat_sources s.rho s.cp c }

/-- Temperature increment of `ThermalEngine::apply_decay_heat` at one cell:
only strictly positive stored rates are applied. -/
def decayDelta (dt : ℚ) (dh rho cp : TCell nx ny nz → ℚ)
    (c : TCell nx ny nz) : ℚ :=
  if dh c > 0 then
    (if rho c * cp c > 0 then dh c * dt / (rho c * cp c) else 0)
  else 0

/-- `ThermalEngine::apply_decay_heat`. -/
def apply_decay_heat (dt : ℚ) (s : ThermalState nx ny nz) : ThermalState nx ny nz :=
  { s with temperature := fun c =>
      s.temperature c + decayDelta dt s.decay_heat s.rho s.cp c }

/-- Temperature increment of `ThermalEngine::step_radiation` at one cell: net
Stefan-Boltzmann loss to the ambient reference, gated by the activation
threshold and a minimum emissivity. -/
def radiationDelta (dx threshold dt : ℚ) (T em rho cp : TCell nx ny nz → ℚ)
    (c : TCell nx ny nz) : ℚ :=
  if T c < threshold then 0
  else if em c < 1/100 then 0
  else if rho c * cp c > 0 then
    (-(STEFAN_BOLTZMANN * em c * ((T c) ^ 4 - ROOM_TEMP ^ 4)) * dt /
      (rho c * cp c * dx))
  else 0

/-- `ThermalEngine::step_radiation`. -/
def step_radiation (cfg : ThermalConfig) (dt : ℚ) (s : ThermalState nx ny nz) :
    ThermalState nx ny nz :=
  { s with temperature := fun c => (s.temperature c +
      radiationDelta cfg.dx cfg.radiation_threshold dt
        s.temperature s.emissivity s.rho s.cp c) }

/-- Per-cell body of `ThermalEngine::step_phase_change` given the looked-up
material properties: `T` and `p` are the loop-local snapshots, while the
temperature/enthalpy/phase triple mirrors the in-place mutations. -/
def phaseChangeCell (props : MaterialProperties) (rho cp T0 e0 : ℚ)
    (p0 : Phase) : ℚ × ℚ × Phase :=
  let m1 : ℚ × ℚ × Phase :=
    if props.melting_point > 0 ∧ props.latent_heat_fusion > 0 then
      let a : ℚ × ℚ × Phase :=
        if p0 = Phase.SOLID ∧ T0 ≥ props.melting_point then
          (props.melting_point, e0 + rho * cp * (T0 - props.melting_point),
            Phase.MELTING)
        else (T0, e0, p0)
      if p0 = Phase.MELTING ∧ a.2.1 ≥ props.latent_heat_fusion * rho then
        (a.1, 0, Phase.LIQUID)
      else a
    else (T0, e0, p0)
  if props.boiling_point > 0 ∧ props.latent_heat_vaporization > 0 then
    let b : ℚ × ℚ × Phase :=
      if p0 = Phase.LIQUID ∧ T0 ≥ props.boiling_point then
        (props.boiling_point, m1.2.1 + rho * cp * (T0 - props.boiling_point),
          Phase.BOILING)
      else m1
    if p0 = Phase.BOILING ∧ b.2.1 ≥ props.latent_heat_vaporization * rho then
      (b.1, 0, Phase.GAS)
    else b
  else m1

/-- Per-cell phase-change result including the material lookup
(`material_list_[material_id_[i]]` then `MATERIALS.find`); unknown names leave
the cell unchanged. -/
def pcCell (matList : List String) (mid : ℕ) (rho cp T0 e0 : ℚ)
    (p0 : Phase) : ℚ × ℚ × Phase :=
  match MATERIALS.find? (fun r => r.1 = matList.getD mid "") with
  | none => (T0, e0, p0)
  | some r => phaseChangeCell r.2 rho cp T0 e0 p0

/-- `ThermalEngine::step_phase_change`. -/
def step_phase_change (dt : ℚ) (s : ThermalState nx ny nz) : ThermalState nx ny nz :=
  { s with
    temperature := fun c => (pcCell s.material_list (s.material_id c) (s.rho c)
      (s.cp c) (s.temperature c) (s.enthalpy c) (s.phase c)).1
    enthalpy := fun c => (pcCell s.material_list (s.material_id c) (s.rho c)
      (s.cp c) (s.temperature c) (s.enthalpy c) (s.phase c)).2.1
    phase := fun c => (pcCell s.material_list (s.material_id c) (s.rho c)
      (s.cp c) (s.temperature c) (s.enthalpy c) (s.phase c)).2.2 }

/-- `ThermalEngine::step`: conduction, advection, transient sources, decay
heat, optional radiation, phase change, in that order. -/
def step (cfg : ThermalConfig) (dt : ℚ) (s : ThermalState nx ny nz) :
    ThermalState nx ny nz :=
  step_phase_change dt
    (let s4 := apply_decay_heat dt (step_sources dt
      (step_advection cfg dt (step_conduction cfg dt s)))
     if cfg.enable_radiation then step_radiation cfg dt s4 else s4)

/-- Pointwise update of a per-cell field. -/
def upd (g : TCell nx ny nz → ℚ) (c : TCell nx ny nz) (v : ℚ) :
    TCell nx ny nz → ℚ :=
  fun c2 => if c2 = c then v else g c2

/-- `ThermalEngine::set_material`: look the name up in `material_list_`
(appending it when missing), store the (uint8-truncated) id at the cell, and
copy the properties from `MATERIALS` only when the name is known there. -/
def set_material (c : TCell nx ny nz) (name : String) (s : ThermalState nx ny nz) :
    ThermalState nx ny nz :=
  let mat_id : ℕ :=
    match s.material_list.findIdx? (fun n => n = name) with
    | some j => j % 256
    | none => s.material_list.length % 256
  let mlist : List String :=
    match s.material_list.findIdx? (fun n => n = name) with
    | some _ => s.material_list
    | none => s.material_list ++ [name]
  let s1 : ThermalState nx ny nz :=
    { s with
      material_id := fun c2 => if c2 = c then mat_id else s.material_id c2
      material_list := mlist }
  match MATERIALS.find? (fun r => r.1 = name) with
  | some r =>
    { s1 with
      k := upd s1.k c r.2.thermal_conductivity
      cp := upd s1.cp c r.2.specific_heat
      rho := upd s1.rho c r.2.density
      emissivity := upd s1.emissivity c r.2.emissivity }
  | none => s1

/-- `ThermalEngine::set_temperature`. -/
def set_temperature (c : TCell nx ny nz) (v : ℚ) (s : ThermalState nx ny nz) :
    ThermalState nx ny nz :=
  { s with temperature := upd s.temperature c v }

/-- `ThermalEngine::get_temperature`. -/
def get_temperature (s : ThermalState nx ny nz) (c : TCell nx ny nz) : ℚ :=
  s.temperature c

/-- `ThermalEngine::add_heat_source`: accumulates `watts / dx^3` at the cell. -/
def add_heat_source (cfg : ThermalConfig) (c : TCell nx ny nz) (watts : ℚ)
    (s : ThermalState nx ny nz) : ThermalState nx ny nz :=
  { s with heat_sources := fun c2 => if c2 = c then
      s.heat_sources c2 + watts / (cfg.dx * cfg.dx * cfg.dx)
    else s.heat_sources c2 }

/-- `ThermalEngine::set_radioactive_ore`: overwrites the stored decay rate. -/
def set_radioactive_ore (c : TCell nx ny nz) (watts_per_m3 : ℚ)
    (s : ThermalState nx ny nz) : ThermalState nx ny nz :=
  { s with decay_heat := upd s.decay_heat c watts_per_m3 }

/-- Iterated thermal steps. -/
def stepIter (cfg : ThermalConfig) (dt : ℚ) (n : ℕ) (s : ThermalState nx ny nz) :
    ThermalState nx ny nz :=
  Nat.rec s (fun _ t => step cfg dt t) n

end ThermalEngine

end Thermal

end Isolated

namespace Isolated

namespace Thermal

namespace ThermalEngine

variable {nx ny nz : ℕ}

/-- A step never writes the transient heat-source accumulator. -/
theorem step_heat_sources (cfg : ThermalConfig) (dt : ℚ)
    (s : ThermalState nx ny nz) :
    (step cfg dt s).heat_sources = s.heat_sources := by
  unfold step
  split <;> rfl

/-- C3 is corrected: `step()` does not clear the transient accumulator — after
one step the source added by `add_heat_source` is still stored, refuting that
the accumulator is zero at every cell after `step()` returns. -/
theorem C3_counterexample :
    (step defaultConfig 1 (add_heat_source defaultConfig (0, 0, 0) 100
      (init 1 1 1))).heat_sources (0, 0, 0) ≠ 0 := by
  rw [step_heat_sources]
  show (if ((0 : Fin 1), (0 : Fin 1), (0 : Fin 1)) = ((0 : Fin 1), (0 : Fin 1), (0 : Fin 1))
    then (0 : ℚ) + 100 / (1 * 1 * 1) else 0) ≠ 0
  norm_num

/-- C3 amended: a source accumulated via `add_heat_source` is applied during
`step(dt)` (raising the cell temperature by `source*dt/(rho*cp)` in the source
pass) but the accumulator is NOT cleared: `step` leaves `heat_sources_`
unchanged at every cell, so the source keeps being applied on every subsequent
tick unless the caller changes it. -/
theorem C3_sources_applied_not_cleared (cfg : ThermalConfig) (dt : ℚ)
    (s : ThermalState nx ny nz) (c : TCell nx ny nz) :
    (step cfg dt s).heat_sources = s.heat_sources ∧
    (s.heat_sources c ≠ 0 → 0 < s.rho c * s.cp c →
      (step_sources dt s).temperature c =
        s.temperature c + s.heat_sources c * dt / (s.rho c * s.cp c)) := by
  refine ⟨step_heat_sources cfg dt s, fun h1 h2 => ?_⟩
  simp [step_sources, sourcesDelta, h1, h2]

/-- Witness: the amended C3 theorem at a concrete engine with a 100 W source. -/
theorem C3_sources_applied_not_cleared_witness :
    (step defaultConfig 1 (add_heat_source defaultConfig (0, 0, 0) 100
        (init 1 1 1))).heat_sources =
      (add_heat_source defaultConfig (0, 0, 0) 100 (init 1 1 1)).heat_sources ∧
    (step_sources 1 (add_heat_source defaultConfig (0, 0, 0) 100
        (init 1 1 1))).temperature (0, 0, 0) =
      (add_heat_source defaultConfig (0, 0, 0) 100 (init 1 1 1)).temperature
          (0, 0, 0) +
        (add_heat_source defaultConfig (0, 0, 0) 100 (init 1 1 1)).heat_sources
            (0, 0, 0) * 1 /
          ((add_heat_source defaultConfig (0, 0, 0) 100 (init 1 1 1)).rho
              (0, 0, 0) *
            (add_heat_source defaultConfig (0, 0, 0) 100 (init 1 1 1)).cp
              (0, 0, 0)) :=
  ⟨(C3_sources_applied_not_cleared defaultConfig 1 _ (0, 0, 0)).1,
   (C3_sources_applied_not_cleared defaultConfig 1 _ (0, 0, 0)).2
     (by norm_num [add_heat_source, init, defaultConfig])
     (by norm_num [add_heat_source, init])⟩

/-- C4 is corrected: `set_material` with a name absent from the material table
still mutates the engine: the unknown name is appended to `material_list_` and
the cell's material id is changed to its index. -/
theorem C4_counterexample :
    (set_material (0, 0, 0) "unobtainium" (init 1 1 1)).material_list ≠
      (init 1 1 1).material_list ∧
    (set_material (0, 0, 0) "unobtainium" (init 1 1 1)).material_id (0, 0, 0) ≠
      (init 1 1 1).material_id (0, 0, 0) := by
  constructor <;> decide

/-- C4 amended: for a name not in `MATERIALS`, `set_material` leaves the
cell's conductivity, specific heat, density, emissivity (and temperature)
untouched, but still records the name: if it was not yet in `material_list_`
the list gains the name at the end and the cell's material id becomes the
(uint8-truncated) old list length. -/
theorem C4_set_material_unknown (s : ThermalState nx ny nz)
    (c : TCell nx ny nz) (name : String)
    (hu : MATERIALS.find? (fun r => r.1 = name) = none) :
    (set_material c name s).k = s.k ∧
    (set_material c name s).cp = s.cp ∧
    (set_material c name s).rho = s.rho ∧
    (set_material c name s).emissivity = s.emissivity ∧
    (set_material c name s).temperature = s.temperature ∧
    (name ∉ s.material_list →
      (set_material c name s).material_list = s.material_list ++ [name] ∧
      (set_material c name s).material_id c = s.material_list.length % 256) := by
  unfold set_material
  rw [hu]
  refine ⟨rfl, rfl, rfl, rfl, rfl, fun hnot => ?_⟩
  have hidx : s.material_list.findIdx? (fun n => n = name) = none := by
    rw [List.findIdx?_eq_none_iff]
    intro x hx
    exact decide_eq_false (fun hxa => hnot (hxa ▸ hx))
  rw [hidx]
  exact ⟨rfl, by simp⟩

/-- Replacing the decay field with one producing the same per-cell decay
increments changes nothing in a step except the stored decay field itself:
no other pass reads `decay_heat_`. -/
theorem step_decay_congr (cfg : ThermalConfig) (dt : ℚ)
    (s : ThermalState nx ny nz) (d1 d2 : TCell nx ny nz → ℚ)
    (hd : ∀ c, decayDelta dt d1 s.rho s.cp c = decayDelta dt d2 s.rho s.cp c) :
    step cfg dt { s with decay_heat := d1 } =
      { step cfg dt { s with decay_heat := d2 } with decay_heat := d1 } := by
  have h4 : apply_decay_heat dt (step_sources dt (step_advection cfg dt
        (step_conduction cfg dt { s with decay_heat := d1 }))) =
      { apply_decay_heat dt (step_sources dt (step_advection cfg dt
          (step_conduction cfg dt { s with decay_heat := d2 }))) with
        decay_heat := d1 } := by
    refine ThermalState.ext ?_ rfl rfl rfl rfl rfl rfl rfl rfl rfl rfl rfl rfl
    funext c
    show (step_sources dt (step_advection cfg dt
        (step_conduction cfg dt { s with decay_heat := d1 }))).temperature c +
        decayDelta dt d1 s.rho s.cp c = _
    rw [hd c]
    rfl
  show step_phase_change dt
      (if cfg.enable_radiation then
        step_radiation cfg dt (apply_decay_heat dt (step_sources dt
          (step_advection cfg dt (step_conduction cfg dt
            { s with decay_heat := d1 }))))
      else apply_decay_heat dt (step_sources dt (step_advection cfg dt
        (step_conduction cfg dt { s with decay_heat := d1 })))) =
    { step_phase_change dt
        (if cfg.enable_radiation then
          step_radiation cfg dt (apply_decay_heat dt (step_sources dt
            (step_advection cfg dt (step_conduction cfg dt
              { s with decay_heat := d2 }))))
        else apply_decay_heat dt (step_sources dt (step_advection cfg dt
          (step_conduction cfg dt { s with decay_heat := d2 })))) with
      decay_heat := d1 }
  rw [h4]
  cases hb : cfg.enable_radiation <;> rfl

/-- C10: `set_radioactive_ore` overwrites the stored decay rate (the last call
wins), `step`'s decay pass only applies strictly positive rates, and setting a
rate `r <= 0` makes the whole step evolve exactly as with rate 0 — only the
stored decay field differs. -/
theorem C10_set_radioactive_ore (cfg : ThermalConfig) (dt : ℚ)
    (s : ThermalState nx ny nz) (c : TCell nx ny nz) (r1 r2 r : ℚ)
    (hr : r ≤ 0) :
    set_radioactive_ore c r2 (set_radioactive_ore c r1 s) =
      set_radioactive_ore c r2 s ∧
    (∀ c2, s.decay_heat c2 ≤ 0 →
      (apply_decay_heat dt s).temperature c2 = s.temperature c2) ∧
    step cfg dt (set_radioactive_ore c r s) =
      { step cfg dt (set_radioactive_ore c 0 s) with
        decay_heat := upd s.decay_heat c r } := by
  refine ⟨?_, ?_, ?_⟩
  · refine ThermalState.ext rfl rfl rfl rfl rfl rfl rfl rfl rfl rfl ?_ rfl rfl
    funext c2
    by_cases h : c2 = c <;> simp [set_radioactive_ore, upd, h]
  · intro c2 h
    have hng : ¬(s.decay_heat c2 > 0) := not_lt.mpr h
    show s.temperature c2 + decayDelta dt s.decay_heat s.rho s.cp c2 =
      s.temperature c2
    simp [decayDelta, hng]
  · have hd : ∀ c2, decayDelta dt (upd s.decay_heat c r) s.rho s.cp c2 =
        decayDelta dt (upd s.decay_heat c 0) s.rho s.cp c2 := by
      intro c2
      by_cases h : c2 = c
      · simp [decayDelta, upd, h, not_lt.mpr hr]
      · simp [decayDelta, upd, h]
    exact step_decay_congr cfg dt s (upd s.decay_heat c r)
      (upd s.decay_heat c 0) hd

/-- Witness: the decay-rate theorem at a concrete engine, rates 5, 7 and -3. -/
theorem C10_set_radioactive_ore_witness :
    set_radioactive_ore (0, 0, 0) 7 (set_radioactive_ore (0, 0, 0) 5 (init 1 1 1)) =
      set_radioactive_ore (0, 0, 0) 7 (init 1 1 1) ∧
    (apply_decay_heat 1 (init 1 1 1)).temperature (0, 0, 0) =
      (init 1 1 1).temperature (0, 0, 0) ∧
    step defaultConfig 1 (set_radioactive_ore (0, 0, 0) (-3) (init 1 1 1)) =
      { step defaultConfig 1 (set_radioactive_ore (0, 0, 0) 0 (init 1 1 1)) with
        decay_heat := upd (init 1 1 1).decay_heat (0, 0, 0) (-3) } := by
  have h := C10_set_radioactive_ore defaultConfig 1 (init 1 1 1) (0, 0, 0) 5 7
    (-3) (by norm_num)
  exact ⟨h.1, h.2.1 (0, 0, 0) (by norm_num [init]), h.2.2⟩

/-- Witness: the amended C4 theorem at a fresh engine and an unknown name. -/
theorem C4_set_material_unknown_witness :
    (set_material (0, 0, 0) "unobtainium" (init 1 1 1)).k = (init 1 1 1).k ∧
    (set_material (0, 0, 0) "unobtainium" (init 1 1 1)).cp = (init 1 1 1).cp ∧
    (set_material (0, 0, 0) "unobtainium" (init 1 1 1)).rho = (init 1 1 1).rho ∧
    (set_material (0, 0, 0) "unobtainium" (init 1 1 1)).emissivity =
      (init 1 1 1).emissivity ∧
    (set_material (0, 0, 0) "unobtainium" (init 1 1 1)).temperature =
      (init 1 1 1).temperature ∧
    (set_material (0, 0, 0) "unobtainium" (init 1 1 1)).material_list =
      (init 1 1 1).material_list ++ ["unobtainium"] ∧
    (set_material (0, 0, 0) "unobtainium" (init 1 1 1)).material_id (0, 0, 0) =
      (init 1 1 1).material_list.length % 256 := by
  have h := C4_set_material_unknown (init 1 1 1) (0, 0, 0) "unobtainium" (by rfl)
  have h6 := h.2.2.2.2.2 (by decide)
  exact ⟨h.1, h.2.1, h.2.2.1, h.2.2.2.1, h.2.2.2.2.1, h6.1, h6.2⟩

/-- On a 1x1x1 grid the conduction stencil never runs (the interior loop is
empty). -/
theorem conductionDelta_111 (dx dt : ℚ) (T k rho cp : TCell 1 1 1 → ℚ)
    (c : TCell 1 1 1) : conductionDelta dx dt T k rho cp c = 0 := by
  have h : ¬(1 ≤ c.1.val ∧ c.1.val + 1 < 1 ∧ 1 ≤ c.2.1.val ∧ c.2.1.val + 1 < 1) := by
    omega
  simp only [conductionDelta, h, if_false]

/-- On a 1x1x1 grid the advection stencil never runs. -/
theorem advectionDelta_111 (dx dt : ℚ) (T ux uy : TCell 1 1 1 → ℚ)
    (c : TCell 1 1 1) : advectionDelta dx dt T ux uy c = 0 := by
  have h : ¬(1 ≤ c.1.val ∧ c.1.val + 1 < 1 ∧ 1 ≤ c.2.1.val ∧ c.2.1.val + 1 < 1) := by
    omega
  simp only [advectionDelta, h, if_false]

/-- Conduction is the identity on a 1x1x1 grid. -/
theorem step_conduction_111 (cfg : ThermalConfig) (dt : ℚ)
    (s : ThermalState 1 1 1) : step_conduction cfg dt s = s := by
  refine ThermalState.ext ?_ rfl rfl rfl rfl rfl rfl rfl rfl rfl rfl rfl rfl
  funext c
  show s.temperature c + conductionDelta cfg.dx dt s.temperature s.k s.rho s.cp c =
    s.temperature c
  rw [conductionDelta_111, add_zero]

/-- Advection is the identity on a 1x1x1 grid. -/
theorem step_advection_111 (cfg : ThermalConfig) (dt : ℚ)
    (s : ThermalState 1 1 1) : step_advection cfg dt s = s := by
  refine ThermalState.ext ?_ rfl rfl rfl rfl rfl rfl rfl rfl rfl rfl rfl rfl
  funext c
  show s.temperature c +
    advectionDelta cfg.dx dt s.temperature s.fluid_ux s.fluid_uy c = s.temperature c
  rw [advectionDelta_111, add_zero]

/-- The decay pass is the identity when no stored rate is strictly positive. -/
theorem apply_decay_heat_nonpos (dt : ℚ) (s : ThermalState nx ny nz)
    (h : ∀ c, ¬(s.decay_heat c > 0)) : apply_decay_heat dt s = s := by
  refine ThermalState.ext ?_ rfl rfl rfl rfl rfl rfl rfl rfl rfl rfl rfl rfl
  funext c
  show s.temperature c + decayDelta dt s.decay_heat s.rho s.cp c = s.temperature c
  simp [decayDelta, h c]

/-- Configuration used for the phase-change scenario: unit cell size, radiation
disabled. -/
def c2Config : ThermalConfig :=
  { dx := 1, enable_radiation := false, radiation_threshold := 500 }

/-- A single water cell (properties as assigned by `set_material`) at
temperature `t`, transition enthalpy `e` and phase `p`, heated by a constant
4.186 MW/m^3 source (so each 1 s tick raises the temperature by exactly 1 K). -/
def c2At (t e : ℚ) (p : Phase) : ThermalState 1 1 1 :=
  { temperature := fun _ => t
    enthalpy := fun _ => e
    phase := fun _ => p
    material_id := fun _ => 1
    material_list := ["air", "water"]
    k := fun _ => 0.6
    cp := fun _ => 4186
    rho := fun _ => 1000
    emissivity := fun _ => 0.95
    heat_sources := fun _ => 4186000
    decay_heat := fun _ => 0
    fluid_ux := fun _ => 0
    fluid_uy := fun _ => 0 }

/-- The heated water cell in SOLID phase just above the melt point. -/
def c2State : ThermalState 1 1 1 := c2At 274.15 0 Phase.SOLID

/-- The source pass raises the heated cell by exactly 1 K per 1 s tick. -/
theorem step_sources_c2At (t e : ℚ) (p : Phase) :
    step_sources 1 (c2At t e p) = c2At (t + 1) e p := by
  refine ThermalState.ext ?_ rfl rfl rfl rfl rfl rfl rfl rfl rfl rfl rfl rfl
  funext c
  show t + sourcesDelta 1 (c2At t e p).heat_sources (c2At t e p).rho
    (c2At t e p).cp c = t + 1
  simp only [sourcesDelta, c2At]
  norm_num

/-- One full step of the heated water cell: sources add 1 K, then the
phase-change pass runs on the result. -/
theorem step_c2At (t e : ℚ) (p : Phase) :
    step c2Config 1 (c2At t e p) =
      c2At (pcCell ["air", "water"] 1 1000 4186 (t + 1) e p).1
        (pcCell ["air", "water"] 1 1000 4186 (t + 1) e p).2.1
        (pcCell ["air", "water"] 1 1000 4186 (t + 1) e p).2.2 := by
  show step_phase_change 1 (apply_decay_heat 1 (step_sources 1
    (step_advection c2Config 1 (step_conduction c2Config 1 (c2At t e p))))) = _
  rw [step_conduction_111, step_advection_111, step_sources_c2At,
    apply_decay_heat_nonpos 1 _ (fun c => by simp [c2At])]
  rfl

/-- The material lookup of the water cell resolves to the water entry. -/
theorem c2_water_lookup :
    MATERIALS.find? (fun r => r.1 = (["air", "water"].getD 1 "")) =
      some ("water", ⟨"water", 0.6, 4186, 1000, 0.95, 273.15, 373.15, 334000,
        2260000⟩) := rfl

/-- Entering the melt: a SOLID water cell at 275.15 K clamps to the melt point,
banks the 2 K overshoot (8.372 MJ/m^3) as enthalpy, and becomes MELTING. -/
theorem pc_solid :
    pcCell ["air", "water"] 1 1000 4186 (274.15 + 1) 0 Phase.SOLID =
      (273.15, 8372000, Phase.MELTING) := by
  unfold pcCell
  rw [c2_water_lookup]
  simp only [phaseChangeCell, reduceCtorEq, false_and, if_false]
  norm_num

/-- Stuck in MELTING: the phase-change pass neither clamps the temperature nor
grows the enthalpy of a MELTING cell whose banked enthalpy is below
`Lf * rho`, for any temperature. -/
theorem pc_melting (t : ℚ) :
    pcCell ["air", "water"] 1 1000 4186 t 8372000 Phase.MELTING =
      (t, 8372000, Phase.MELTING) := by
  unfold pcCell
  rw [c2_water_lookup]
  simp only [phaseChangeCell, reduceCtorEq, false_and, if_false]
  norm_num

/-- Unfolding one thermal iterate. -/
theorem stepIter_succ (cfg : ThermalConfig) (dt : ℚ) (n : ℕ)
    (s : ThermalState nx ny nz) :
    stepIter cfg dt (n + 1) s = step cfg dt (stepIter cfg dt n s) := rfl

/-- C2 fails on the code: a SOLID water cell heated at constant power enters
MELTING with the temperature clamped once, but on every following tick the
temperature rises above the melt point while the phase stays MELTING and the
banked enthalpy never grows, so the cell never absorbs `rho*Lf` and never
becomes LIQUID. -/
theorem C2_code_bug :
    (step c2Config 1 c2State).phase (0, 0, 0) = Phase.MELTING ∧
    (step c2Config 1 c2State).temperature (0, 0, 0) = 273.15 ∧
    (step c2Config 1 (step c2Config 1 c2State)).temperature (0, 0, 0) = 274.15 ∧
    273.15 < (step c2Config 1 (step c2Config 1 c2State)).temperature (0, 0, 0) ∧
    (step c2Config 1 (step c2Config 1 c2State)).phase (0, 0, 0) = Phase.MELTING ∧
    (step c2Config 1 (step c2Config 1 c2State)).enthalpy (0, 0, 0) =
      (step c2Config 1 c2State).enthalpy (0, 0, 0) ∧
    (step c2Config 1 c2State).enthalpy (0, 0, 0) < 334000 * 1000 ∧
    ∀ n, (stepIter c2Config 1 (n + 1) c2State).phase (0, 0, 0) = Phase.MELTING := by
  have h1 : step c2Config 1 c2State = c2At 273.15 8372000 Phase.MELTING := by
    show step c2Config 1 (c2At 274.15 0 Phase.SOLID) = _
    rw [step_c2At, pc_solid]
  have hm : ∀ t : ℚ, step c2Config 1 (c2At t 8372000 Phase.MELTING) =
      c2At (t + 1) 8372000 Phase.MELTING := by
    intro t
    rw [step_c2At, pc_melting]
  have h2 : step c2Config 1 (step c2Config 1 c2State) =
      c2At (273.15 + 1) 8372000 Phase.MELTING := by
    rw [h1, hm]
  have hiter : ∀ n, ∃ t : ℚ, stepIter c2Config 1 (n + 1) c2State =
      c2At t 8372000 Phase.MELTING := by
    intro n
    induction n with
    | zero => exact ⟨273.15, h1⟩
    | succ k ih =>
      obtain ⟨t, ht⟩ := ih
      exact ⟨t + 1, by rw [stepIter_succ, ht, hm]⟩
  refine ⟨by rw [h1]; rfl, by rw [h1]; rfl, by rw [h2]; norm_num [c2At],
    by rw [h2]; norm_num [c2At], by rw [h2]; rfl, by rw [h2, h1]; rfl,
    by rw [h1]; norm_num [c2At], fun n => ?_⟩
  obtain ⟨t, ht⟩ := hiter n
  rw [ht]
  rfl

end ThermalEngine

end Thermal

end Isolated

namespace Isolated

namespace World

/-- Chunk coordinate (integer chunk index per axis). -/
abbrev ChunkCoord := ℤ × ℤ × ℤ

/-- C++ `/` on int for a positive (here always literal) divisor: truncation
toward zero. -/
def tdiv (a : ℤ) (b : ℕ) : ℤ :=
  if 0 ≤ a then ((a.toNat / b : ℕ) : ℤ) else -(((-a).toNat / b : ℕ) : ℤ)

/-- C++ `%` on int for a positive divisor: remainder of the truncating
division (sign of the dividend). -/
def tmod (a : ℤ) (b : ℕ) : ℤ := a - b * tdiv a b

/-- The `floor_div` helper of `ChunkManager::world_to_chunk`:
`a >= 0 ? a / b : (a - b + 1) / b` over C++ integer division. -/
def floor_div (a : ℤ) (b : ℕ) : ℤ :=
  if 0 ≤ a then tdiv a b else tdiv (a - (b : ℤ) + 1) b

/-- `ChunkManager::world_to_chunk` with `CHUNK_SIZE = 64`. -/
def world_to_chunk (wx wy wz : ℤ) : ChunkCoord :=
  (floor_div wx 64, floor_div wy 64, floor_div wz 64)

/-- The local-coordinate expression `((w % 64) + 64) % 64` used by the
world-coordinate accessors. -/
def localCoord (w : ℤ) : ℤ := tmod (tmod w 64 + 64) 64

/-- `Chunk::idx`: flat index `x + 64*(y + 64*z)` of a local voxel. -/
def chunkIdx (x y z : ℤ) : ℤ := x + 64 * (y + 64 * z)

/-- The (chunk coordinate, flat voxel index) pair addressed by
`ChunkManager::get_material` at a world coordinate. -/
def get_material_addr (wx wy wz : ℤ) : ChunkCoord × ℤ :=
  (world_to_chunk wx wy wz,
    chunkIdx (localCoord wx) (localCoord wy) (localCoord wz))

/-- The (chunk coordinate, flat voxel index) pair addressed by
`ChunkManager::get_temperature` (and the setters) at a world coordinate. -/
def get_temperature_addr (wx wy wz : ℤ) : ChunkCoord × ℤ :=
  (world_to_chunk wx wy wz,
    chunkIdx (localCoord wx) (localCoord wy) (localCoord wz))

/-- C6: chunk-then-local decomposition round-trips: `chunk*64 + local = w`
with `0 <= local < 64` for every signed world coordinate; world x = -1 maps to
chunk -1, local 63; and `get_material` and `get_temperature` address the same
voxel. -/
theorem C6_coordinate_roundtrip (wx wy wz : ℤ) :
    floor_div wx 64 * 64 + localCoord wx = wx ∧
    0 ≤ localCoord wx ∧ localCoord wx < 64 ∧
    world_to_chunk (-1) (-1) (-1) = (-1, -1, -1) ∧
    localCoord (-1) = 63 ∧
    get_material_addr wx wy wz = get_temperature_addr wx wy wz := by
  refine ⟨?_, ?_, ?_, by decide, by decide, rfl⟩
  · unfold floor_div localCoord tmod tdiv
    split_ifs <;> omega
  · unfold localCoord tmod tdiv
    split_ifs <;> omega
  · unfold localCoord tmod tdiv
    split_ifs <;> omega

/-- State owned by `ChunkManager` for loading and eviction: the keys of
`loaded_chunks_`, the `lru_order_` list (front = oldest), and the
`max_loaded` capacity. Chunk payloads, which play no part in eviction
identity, are not modelled. -/
structure CMState where
  loaded : List ChunkCoord
  lru_order : List ChunkCoord
  max_loaded : ℕ
deriving DecidableEq

/-- `ChunkManager::unload_chunk`: if loaded, remove from the chunk map and
from the LRU tracking. -/
def unload_chunk (c : ChunkCoord) (s : CMState) : CMState :=
  if c ∈ s.loaded then
    { s with loaded := s.loaded.erase c, lru_order := s.lru_order.erase c }
  else s

/-- `ChunkManager::evict_lru`: unload the front (oldest) of `lru_order_`. -/
def evict_lru (s : CMState) : CMState :=
  match s.lru_order with
  | [] => s
  | oldest :: _ => unload_chunk oldest s

/-- The `while (loaded_chunks_.size() >= max_loaded) evict_lru();` loop of
`load_chunk`, unrolled on explicit fuel. With the map and the LRU list in
sync (every reachable state) each eviction removes one LRU entry, so
`lru_order`-length fuel runs the loop to completion exactly as the source
does. -/
def evict_loop : ℕ → CMState → CMState
  | 0, s => s
  | fuel + 1, s =>
    if s.max_loaded ≤ s.loaded.length then
      match s.lru_order with
      | [] => s
      | oldest :: _ => evict_loop fuel (unload_chunk oldest s)
    else s

/-- `ChunkManager::load_chunk`: evict under capacity pressure, then insert the
chunk and push it at the back (newest) of the LRU order. -/
def load_chunk (c : ChunkCoord) (s : CMState) : CMState :=
  let s1 := evict_loop s.lru_order.length s
  { s1 with loaded := c :: s1.loaded, lru_order := s1.lru_order ++ [c] }

/-- `ChunkManager::get_chunk_at`: a loaded chunk is returned with no state
change (in particular `touch_lru` is not called); a missing chunk is loaded
on demand. -/
def get_chunk_at (c : ChunkCoord) (s : CMState) : CMState :=
  if c ∈ s.loaded then s else load_chunk c s

/-- `ChunkManager::touch_lru`: move a tracked chunk to the back (most recently
used) of the LRU order. No caller in the source invokes it. -/
def touch_lru (c : ChunkCoord) (s : CMState) : CMState :=
  if c ∈ s.lru_order then
    { s with lru_order := s.lru_order.erase c ++ [c] }
  else s

/-- An empty manager with capacity `max_loaded = 2`. -/
def cmEmpty : CMState := { loaded := [], lru_order := [], max_loaded := 2 }

/-- First probe chunk. -/
def cA : ChunkCoord := (0, 0, 0)

/-- Second probe chunk. -/
def cB : ChunkCoord := (1, 0, 0)

/-- Third probe chunk. -/
def cC : ChunkCoord := (2, 0, 0)

/-- C5 fails on the code: with capacity 2, after loading A and B, an access to
A via `get_chunk_at` leaves the manager state completely unchanged (the access
path never calls `touch_lru`), so loading C evicts A — the chunk accessed
most recently between loads — while the claim requires B to be the victim. -/
theorem C5_code_bug :
    get_chunk_at cA (get_chunk_at cB (get_chunk_at cA cmEmpty)) =
      get_chunk_at cB (get_chunk_at cA cmEmpty) ∧
    cA ∉ (get_chunk_at cC (get_chunk_at cA (get_chunk_at cB
      (get_chunk_at cA cmEmpty)))).loaded ∧
    cB ∈ (get_chunk_at cC (get_chunk_at cA (get_chunk_at cB
      (get_chunk_at cA cmEmpty)))).loaded ∧
    cC ∈ (get_chunk_at cC (get_chunk_at cA (get_chunk_at cB
      (get_chunk_at cA cmEmpty)))).loaded ∧
    (get_chunk_at cC (get_chunk_at cA (get_chunk_at cB
      (get_chunk_at cA cmEmpty)))).lru_order = [cB, cC] := by
  refine ⟨by decide, by decide, by decide, by decide, by decide⟩

end World

end Isolated
